import Mathlib

/-!
Verification of the Risklink interview program (src/main.py) against its
natural-language specification.  Strings are modelled as `List Char`;
the Python string primitives used by the source (`strip`, `split`,
`lower`, `upper`, `rstrip(",.")`) are embedded explicitly.
-/

/-- Python whitespace test used by `str.strip` / `str.split` (ASCII). -/
def pyIsSpace (c : Char) : Bool :=
  c == ' ' || c == '\t' || c == '\n' || c == '\r' || c == '\x0b' || c == '\x0c'

/-- Python `str.lower` on one ASCII character. -/
def pyToLower (c : Char) : Char :=
  match c with
  | 'A' => 'a' | 'B' => 'b' | 'C' => 'c' | 'D' => 'd' | 'E' => 'e'
  | 'F' => 'f' | 'G' => 'g' | 'H' => 'h' | 'I' => 'i' | 'J' => 'j'
  | 'K' => 'k' | 'L' => 'l' | 'M' => 'm' | 'N' => 'n' | 'O' => 'o'
  | 'P' => 'p' | 'Q' => 'q' | 'R' => 'r' | 'S' => 's' | 'T' => 't'
  | 'U' => 'u' | 'V' => 'v' | 'W' => 'w' | 'X' => 'x' | 'Y' => 'y'
  | 'Z' => 'z'
  | c => c

/-- Python `str.upper` on one ASCII character. -/
def pyToUpper (c : Char) : Char :=
  match c with
  | 'a' => 'A' | 'b' => 'B' | 'c' => 'C' | 'd' => 'D' | 'e' => 'E'
  | 'f' => 'F' | 'g' => 'G' | 'h' => 'H' | 'i' => 'I' | 'j' => 'J'
  | 'k' => 'K' | 'l' => 'L' | 'm' => 'M' | 'n' => 'N' | 'o' => 'O'
  | 'p' => 'P' | 'q' => 'Q' | 'r' => 'R' | 's' => 'S' | 't' => 'T'
  | 'u' => 'U' | 'v' => 'V' | 'w' => 'W' | 'x' => 'X' | 'y' => 'Y'
  | 'z' => 'Z'
  | c => c

/-- Python `str.strip()`: drop leading and trailing whitespace. -/
def pyStrip (s : List Char) : List Char :=
  ((s.dropWhile pyIsSpace).reverse.dropWhile pyIsSpace).reverse

/-- Python `str.lower()`. -/
def pyLower (s : List Char) : List Char := s.map pyToLower

/-- Python `str.upper()`. -/
def pyUpper (s : List Char) : List Char := s.map pyToUpper

/-- Python `str.rstrip(",.")`: drop trailing commas and periods. -/
def pyRstripPunct (s : List Char) : List Char :=
  (s.reverse.dropWhile (fun c => c == ',' || c == '.')).reverse

/-- Accumulator worker for `pySplit`; `acc` holds the current word reversed. -/
def pySplitAux : List Char → List Char → List (List Char)
  | [], acc => if acc.isEmpty then [] else [acc.reverse]
  | c :: cs, acc =>
    if pyIsSpace c then
      if acc.isEmpty then pySplitAux cs []
      else acc.reverse :: pySplitAux cs []
    else pySplitAux cs (c :: acc)

/-- Python `str.split()`: split on whitespace runs, discarding empties. -/
def pySplit (s : List Char) : List (List Char) := pySplitAux s []

/-- The interrogative set of `classify_answer` (src/main.py line 166). -/
def qWords : List (List Char) :=
  ["what".data, "why".data, "how".data, "when".data, "where".data,
   "which".data, "who".data]

/-- `classify_answer` (src/main.py lines 164-171): local triage of a reply. -/
def classify_answer (answer : List Char) : List Char :=
  if '?' ∈ pyLower (pyStrip answer) then "clarification".data
  else
    match pySplit (pyLower (pyStrip answer)) with
    | [] => "valid".data
    | w :: _ => if w ∈ qWords then "clarification".data else "valid".data

/-- The `first_word` computation of `ReportAgent.validate_answer`
(src/main.py lines 42-43): first whitespace-delimited word of the stripped
response, uppercased, with trailing `,`/`.` removed; `INVALID` when the
response has no words. -/
def first_word (response : List Char) : List Char :=
  match pySplit (pyStrip response) with
  | [] => "INVALID".data
  | w :: _ => pyRstripPunct (pyUpper w)

/-- `ReportAgent.validate_answer` (src/main.py lines 37-45): format check of
the first whitespace-delimited token against the accepted tokens. -/
def validate_answer (response : List Char) : List Char :=
  if first_word response = "YES".data ∨ first_word response = "NO".data ∨
     first_word response = "NOT APPLICABLE".data then first_word response
  else "INVALID".data

/-- One record stored by `ReportAgent` (src/main.py lines 59-63): the
`Question`, `Answer` (validated token) and `Entire Answer` fields. -/
structure AnswerRecord where
  question : List Char
  answer : List Char
  entireAnswer : List Char
deriving DecidableEq, Repr

/-- Observable events of one question's run: console emissions and
collaborator invocations, in order. -/
inductive Event where
  | present (text : List Char)
  | prompt
  | clarify (q r : List Char)
  | emitText (text : List Char)
  | rePresent (text : List Char)
  | semantic (q r : List Char)
  | verdictLogged (v : List Char)
  | formatReprompt
  | duplicateNotice (q : List Char)
  | recordedNotice (a : List Char)
  | acceptNotice (q : List Char)
  | save
deriving DecidableEq, Repr

/-- The `while True` re-prompt loop of `record_answer` (src/main.py lines
50-56): keep asking until `validate_answer` accepts; each re-prompted reply
is stripped.  The stream of future console replies is explicit; `none`
models the loop still blocking when the stream runs out. -/
def formatLoop (response : List Char) : List (List Char) → Option (List Char × List Event)
  | [] =>
    if validate_answer response = "INVALID".data then none
    else some (response, [])
  | p :: ps =>
    if validate_answer response = "INVALID".data then
      (formatLoop (pyStrip p) ps).map (fun x => (x.1, Event.formatReprompt :: x.2))
    else some (response, [])

/-- `ReportAgent.record_answer` (src/main.py lines 47-70).  Returns the new
record list, the Python return value (the function body has no `return`
statement, hence always `none`), and the trace of its console events. -/
def record_answer (st : List AnswerRecord) (question response : List Char)
    (prompts : List (List Char)) :
    Option (List AnswerRecord × Option (List Char) × List Event) :=
  (formatLoop response prompts).map (fun x =>
    if st.any (fun item => item.question == question) then
      (st, none, x.2 ++ [Event.duplicateNotice question])
    else
      (st ++ [(⟨question, validate_answer x.1, pyStrip x.1⟩ : AnswerRecord)], none,
       x.2 ++ [Event.recordedNotice (pyStrip x.1)]))

/-- The question-emission override (src/main.py lines 193-201 and 239-244):
strip the agent output; if it differs from the stripped original question,
discard it and use the stripped original. -/
def presentQuestion (original output : List Char) : List Char :=
  if pyStrip output = pyStrip original then pyStrip output else pyStrip original

/-- External inputs consumed by one iteration of the clarification loop:
the Clarifier's explanation text, the agent output at the re-ask, and the
respondent's next raw reply. -/
structure ClarStep where
  clarText : List Char
  reAskOut : List Char
  nextReply : List Char
deriving DecidableEq, Repr

/-- Trace block of one clarification-loop iteration (src/main.py lines
221-251): Clarifier invoked on `(q, reply)`, explanation emitted, question
re-presented with the override, new reply prompted. -/
def clarBlock (q : List Char) (p : List Char × ClarStep) : List Event :=
  [Event.clarify q p.1, Event.emitText p.2.clarText,
   Event.rePresent (presentQuestion q p.2.reAskOut), Event.prompt]

/-- The `while classification == "clarification"` loop (src/main.py lines
221-251).  Returns the final reply together with the loop's event trace;
`none` models blocking when the input stream runs out. -/
def clarLoop (q reply : List Char) : List ClarStep → Option (List Char × List Event)
  | [] =>
    if classify_answer reply = "clarification".data then none
    else some (reply, [])
  | s :: rest =>
    if classify_answer reply = "clarification".data then
      (clarLoop q (pyStrip s.nextReply) rest).map (fun x =>
        (x.1, clarBlock q (reply, s) ++ x.2))
    else some (reply, [])

/-- The `while classification == "invalid"` loop (src/main.py lines
215-219).  `classify_answer` never returns `"invalid"`, so this loop never
consumes input; it is modelled faithfully nonetheless. -/
def invalidLoop (reply : List Char) : List (List Char) → Option (List Char × List (List Char))
  | [] =>
    if classify_answer reply = "invalid".data then none
    else some (reply, [])
  | r :: rs =>
    if classify_answer reply = "invalid".data then invalidLoop (pyStrip r) rs
    else some (reply, r :: rs)

/-- External inputs consumed by one run of `run_question`: the first
message output of the initial agent run, the respondent's first raw reply,
the (never-consumed) replies of the dead `"invalid"` loop, the
clarification-loop steps, the SemanticClassifier's raw output, and the
replies fed to `record_answer`'s format re-prompt loop. -/
structure QuestionInput where
  firstOutput : List Char
  reply1 : List Char
  extraReplies : List (List Char)
  steps : List ClarStep
  verdict : List Char
  formatPrompts : List (List Char)
deriving DecidableEq, Repr

/-- `run_question` (src/main.py lines 177-321): present the question with
the override, take a reply, run the dead `"invalid"` loop and the
clarification loop, run the semantic check (verdict logged, not branched
on), record the answer, save.  Returns the new record list and the trace. -/
def runQuestion (q : List Char) (inp : QuestionInput) (st : List AnswerRecord) :
    Option (List AnswerRecord × List Event) :=
  match invalidLoop (pyStrip inp.reply1) inp.extraReplies with
  | none => none
  | some ans0 =>
    match clarLoop q ans0.1 inp.steps with
    | none => none
    | some fin =>
      match record_answer st q fin.1 inp.formatPrompts with
      | none => none
      | some res =>
        some (res.1,
          [Event.present (presentQuestion q inp.firstOutput), Event.prompt]
          ++ fin.2
          ++ [Event.semantic q fin.1,
              Event.verdictLogged (pyLower (pyStrip inp.verdict))]
          ++ res.2.2
          ++ (if res.2.1.isSome then [Event.acceptNotice q] else [])
          ++ [Event.save])

/-- `main`'s flattening of the questionnaire (src/main.py line 326):
`[(domain, q) for domain, qs in questionnaire.items() for q in qs]`. -/
def flattenQs (qn : List (List Char × List (List Char))) : List (List Char × List Char) :=
  qn.flatMap (fun dq => dq.2.map (fun q => (dq.1, q)))

/-- Reference order from the spec: the sequence of questions in the order
they are first recorded, i.e. the questionnaire order with later duplicate
question strings dropped. -/
def firstOccur (qs : List (List Char)) : List (List Char) :=
  qs.foldl (fun acc q => if q ∈ acc then acc else acc ++ [q]) []

/-- The `main` loop (src/main.py lines 324-330): run each `(domain,
question)` pair in order with its input bundle; `run_question` itself saves
after recording, and `main` saves once more at the end.  Returns the final
record list and the list of successive saved snapshots. -/
def runAll : List ((List Char × List Char) × QuestionInput) → List AnswerRecord →
    Option (List AnswerRecord × List (List AnswerRecord))
  | [], st => some (st, [st])
  | p :: rest, st =>
    match runQuestion p.1.2 p.2 st with
    | none => none
    | some out => (runAll rest out.1).map (fun x => (x.1, out.1 :: x.2))

/-! ## Helper lemmas -/

lemma pyToLower_eq_qmark (c : Char) : pyToLower c = '?' ↔ c = '?' := by
  constructor
  · intro h
    unfold pyToLower at h
    split at h <;> first | exact h | exact absurd h (by decide)
  · intro h
    subst h
    decide

lemma mem_dropWhile_iff {p : Char → Bool} {c : Char} (hc : p c = false)
    (l : List Char) : c ∈ l.dropWhile p ↔ c ∈ l := by
  induction l with
  | nil => simp
  | cons a t ih =>
    rw [List.dropWhile_cons]
    by_cases ha : p a = true
    · rw [if_pos ha, ih, List.mem_cons]
      constructor
      · exact Or.inr
      · rintro (h | h)
        · subst h
          rw [hc] at ha
          cases ha
        · exact h
    · rw [if_neg ha]

lemma qmark_mem_pyStrip (s : List Char) : '?' ∈ pyStrip s ↔ '?' ∈ s := by
  have h : pyIsSpace '?' = false := by decide
  simp [pyStrip, List.mem_reverse, mem_dropWhile_iff h]

lemma qmark_mem_pyLower (s : List Char) : '?' ∈ pyLower s ↔ '?' ∈ s := by
  simp only [pyLower, List.mem_map]
  constructor
  · rintro ⟨a, ha, h⟩
    rwa [(pyToLower_eq_qmark a).mp h] at ha
  · intro h
    exact ⟨'?', h, by decide⟩

lemma qmark_norm (r : List Char) : '?' ∈ pyLower (pyStrip r) ↔ '?' ∈ r :=
  (qmark_mem_pyLower _).trans (qmark_mem_pyStrip _)

lemma classify_total (r : List Char) :
    classify_answer r = "clarification".data ∨ classify_answer r = "valid".data := by
  unfold classify_answer
  split
  · exact Or.inl rfl
  · split
    · exact Or.inr rfl
    · split
      · exact Or.inl rfl
      · exact Or.inr rfl

lemma classify_ne_invalid (r : List Char) : classify_answer r ≠ "invalid".data := by
  rcases classify_total r with h | h <;> rw [h] <;> decide

lemma validate_cases (r : List Char) :
    validate_answer r = "INVALID".data ∨ validate_answer r = "YES".data ∨
    validate_answer r = "NO".data ∨ validate_answer r = "NOT APPLICABLE".data := by
  unfold validate_answer
  split
  · next h =>
    rcases h with h | h | h
    · exact Or.inr (Or.inl h)
    · exact Or.inr (Or.inr (Or.inl h))
    · exact Or.inr (Or.inr (Or.inr h))
  · exact Or.inl rfl

lemma invalidLoop_eq (r : List Char) (rs : List (List Char)) :
    invalidLoop r rs = some (r, rs) := by
  cases rs with
  | nil =>
    unfold invalidLoop
    rw [if_neg (classify_ne_invalid r)]
  | cons a as =>
    unfold invalidLoop
    rw [if_neg (classify_ne_invalid r)]

lemma formatLoop_valid {r : List Char} {ps : List (List Char)}
    {out : List Char × List Event} (h : formatLoop r ps = some out) :
    validate_answer out.1 ≠ "INVALID".data := by
  induction ps generalizing r out with
  | nil =>
    unfold formatLoop at h
    split at h
    · cases h
    · next hv =>
      cases h
      exact hv
  | cons p ps ih =>
    unfold formatLoop at h
    split at h
    · rcases Option.map_eq_some'.mp h with ⟨x, hx, hfx⟩
      cases hfx
      have hmain := ih hx
      exact hmain
    · next hv =>
      cases h
      exact hv

lemma formatLoop_trace {r : List Char} {ps : List (List Char)}
    {out : List Char × List Event} (h : formatLoop r ps = some out) :
    ∀ e ∈ out.2, e = Event.formatReprompt := by
  induction ps generalizing r out with
  | nil =>
    unfold formatLoop at h
    split at h
    · cases h
    · cases h
      intro e he
      cases he
  | cons p ps ih =>
    unfold formatLoop at h
    split at h
    · rcases Option.map_eq_some'.mp h with ⟨x, hx, hfx⟩
      cases hfx
      intro e he
      rcases List.mem_cons.mp he with rfl | he
      · rfl
      · exact ih hx e he
    · cases h
      intro e he
      cases he

lemma formatLoop_append {r g : List Char} {ps : List (List Char)}
    (h : formatLoop r ps = none)
    (hg : validate_answer (pyStrip g) ≠ "INVALID".data) :
    (formatLoop r (ps ++ [g])).isSome := by
  induction ps generalizing r with
  | nil =>
    unfold formatLoop at h
    split at h
    · next hv =>
      rw [List.nil_append]
      unfold formatLoop
      rw [if_pos hv]
      unfold formatLoop
      rw [if_neg hg]
      rfl
    · cases h
  | cons p ps ih =>
    unfold formatLoop at h
    split at h
    · next hv =>
      rw [List.cons_append]
      unfold formatLoop
      rw [if_pos hv]
      rcases hfl : formatLoop (pyStrip p) ps with _ | x
      · have := ih hfl
        rcases Option.isSome_iff_exists.mp this with ⟨y, hy⟩
        rw [hy]
        rfl
      · rw [hfl] at h
        cases h
    · cases h

lemma record_answer_some {st : List AnswerRecord} {q r : List Char}
    {ps : List (List Char)} {out : List AnswerRecord × Option (List Char) × List Event}
    (h : record_answer st q r ps = some out) :
    ∃ fl, formatLoop r ps = some fl ∧
      ((st.any (fun item => item.question == q) = true ∧
        out = (st, none, fl.2 ++ [Event.duplicateNotice q])) ∨
       (st.any (fun item => item.question == q) = false ∧
        out = (st ++ [(⟨q, validate_answer fl.1, pyStrip fl.1⟩ : AnswerRecord)], none,
               fl.2 ++ [Event.recordedNotice (pyStrip fl.1)]))) := by
  unfold record_answer at h
  rcases Option.map_eq_some'.mp h with ⟨fl, hfl, heq⟩
  refine ⟨fl, hfl, ?_⟩
  by_cases hany : st.any (fun item => item.question == q) = true
  · left
    refine ⟨hany, ?_⟩
    rw [if_pos hany] at heq
    exact heq.symm
  · right
    refine ⟨Bool.not_eq_true _ ▸ hany, ?_⟩
    rw [if_neg hany] at heq
    exact heq.symm

lemma clarLoop_shape {q reply : List Char} {steps : List ClarStep}
    {out : List Char × List Event} (h : clarLoop q reply steps = some out) :
    classify_answer out.1 ≠ "clarification".data ∧
    ∃ ps : List (List Char × ClarStep), out.2 = ps.flatMap (clarBlock q) ∧
      ∀ p ∈ ps, classify_answer p.1 = "clarification".data := by
  induction steps generalizing reply out with
  | nil =>
    unfold clarLoop at h
    split at h
    · cases h
    · next hc =>
      cases h
      exact ⟨hc, [], rfl, by simp⟩
  | cons s rest ih =>
    unfold clarLoop at h
    split at h
    · next hc =>
      rcases Option.map_eq_some'.mp h with ⟨x, hx, hfx⟩
      cases hfx
      obtain ⟨h1, ps, h2, h3⟩ := ih hx
      refine ⟨h1, (reply, s) :: ps, ?_, ?_⟩
      · simp only [List.flatMap_cons, h2]
      · intro p hp
        rcases List.mem_cons.mp hp with rfl | hp
        · exact hc
        · exact h3 p hp
    · next hc =>
      cases h
      exact ⟨hc, [], rfl, by simp⟩

lemma runQuestion_some {q : List Char} {inp : QuestionInput}
    {st : List AnswerRecord} {out : List AnswerRecord × List Event}
    (h : runQuestion q inp st = some out) :
    ∃ fin res, clarLoop q (pyStrip inp.reply1) inp.steps = some fin ∧
      record_answer st q fin.1 inp.formatPrompts = some res ∧
      out = (res.1,
        [Event.present (presentQuestion q inp.firstOutput), Event.prompt]
        ++ fin.2
        ++ [Event.semantic q fin.1,
            Event.verdictLogged (pyLower (pyStrip inp.verdict))]
        ++ res.2.2
        ++ (if res.2.1.isSome then [Event.acceptNotice q] else [])
        ++ [Event.save]) := by
  unfold runQuestion at h
  rw [invalidLoop_eq] at h
  dsimp only at h
  rcases hcl : clarLoop q (pyStrip inp.reply1) inp.steps with _ | fin
  · rw [hcl] at h
    cases h
  · rw [hcl] at h
    dsimp only at h
    rcases hra : record_answer st q fin.1 inp.formatPrompts with _ | res
    · rw [hra] at h
      cases h
    · rw [hra] at h
      dsimp only at h
      exact ⟨fin, res, rfl, hra, (Option.some.inj h).symm⟩

lemma presentQuestion_eq (original output : List Char) :
    presentQuestion original output = pyStrip original := by
  unfold presentQuestion
  split
  · next h => exact h
  · rfl

lemma record_trace_events {st : List AnswerRecord} {q r : List Char}
    {ps : List (List Char)} {out : List AnswerRecord × Option (List Char) × List Event}
    (h : record_answer st q r ps = some out) :
    ∀ e ∈ out.2.2, e = Event.formatReprompt ∨ e = Event.duplicateNotice q ∨
      ∃ x, e = Event.recordedNotice x := by
  rcases record_answer_some h with ⟨fl, hfl, ⟨-, rfl⟩ | ⟨-, rfl⟩⟩
  · intro e he
    dsimp only at he
    rcases List.mem_append.mp he with he | he
    · exact Or.inl (formatLoop_trace hfl e he)
    · exact Or.inr (Or.inl (List.mem_singleton.mp he))
  · intro e he
    dsimp only at he
    rcases List.mem_append.mp he with he | he
    · exact Or.inl (formatLoop_trace hfl e he)
    · exact Or.inr (Or.inr ⟨pyStrip fl.1, List.mem_singleton.mp he⟩)

lemma runQuestion_state_questions {q : List Char} {inp : QuestionInput}
    {st : List AnswerRecord} {out : List AnswerRecord × List Event}
    (h : runQuestion q inp st = some out) :
    out.1.map (fun rec => rec.question) =
      (if q ∈ st.map (fun rec => rec.question) then st.map (fun rec => rec.question)
       else st.map (fun rec => rec.question) ++ [q]) := by
  obtain ⟨fin, res, hcl, hra, rfl⟩ := runQuestion_some h
  rcases record_answer_some hra with ⟨fl, hfl, ⟨hany, rfl⟩ | ⟨hany, rfl⟩⟩
  · dsimp only
    have hmem : q ∈ st.map (fun rec => rec.question) := by
      rcases List.any_eq_true.mp hany with ⟨rec, hrec, hbe⟩
      exact List.mem_map.mpr ⟨rec, hrec, by simpa using hbe⟩
    rw [if_pos hmem]
  · dsimp only
    have hmem : q ∉ st.map (fun rec => rec.question) := by
      intro hq
      rcases List.mem_map.mp hq with ⟨rec, hrec, hqe⟩
      have hta : st.any (fun item => item.question == q) = true :=
        List.any_eq_true.mpr ⟨rec, hrec, by simp [hqe]⟩
      rw [hta] at hany
      cases hany
    rw [if_neg hmem, List.map_append]
    rfl

lemma runAll_sound : ∀ (pairs : List ((List Char × List Char) × QuestionInput))
    (st : List AnswerRecord) (out : List AnswerRecord × List (List AnswerRecord)),
    runAll pairs st = some out →
    out.1.map (fun rec => rec.question) =
      (pairs.map (fun p => p.1.2)).foldl
        (fun acc q => if q ∈ acc then acc else acc ++ [q])
        (st.map (fun rec => rec.question)) ∧
    out.2.length = pairs.length + 1 ∧
    out.2.getLast? = some out.1 := by
  intro pairs
  induction pairs with
  | nil =>
    intro st out h
    unfold runAll at h
    cases h
    exact ⟨rfl, rfl, rfl⟩
  | cons p rest ih =>
    intro st out h
    unfold runAll at h
    rcases hrq : runQuestion p.1.2 p.2 st with _ | o1
    · rw [hrq] at h
      cases h
    · rw [hrq] at h
      dsimp only at h
      rcases hrest : runAll rest o1.1 with _ | o2
      · rw [hrest] at h
        cases h
      · rw [hrest, Option.map_some'] at h
        cases h
        obtain ⟨m1, m2, m3⟩ := ih o1.1 o2 hrest
        refine ⟨?_, ?_, ?_⟩
        · dsimp only
          rw [List.map_cons, List.foldl_cons, m1, runQuestion_state_questions hrq]
        · dsimp only
          rw [List.length_cons, m2, List.length_cons]
        · dsimp only
          cases hsn : o2.2 with
          | nil =>
            rw [hsn] at m2
            cases m2
          | cons b bs =>
            rw [← hsn, ← m3]
            rw [hsn]
            exact List.getLast?_cons_cons

/-! ## Claim theorems -/

/-- Claim C1 (refuted; code bug): the spec says `classify_format` returns
`NOT APPLICABLE` for replies beginning with the two-word phrase, but
`validate_answer` compares only the first whitespace-delimited token, so
`"not applicable, see attached"` — and even the literal reply
`"NOT APPLICABLE"` that the re-prompt itself requests — are rejected as
`INVALID` (the code's malformed marker), while the single-token `YES`/`NO`
cases behave as claimed. -/
theorem C1_not_applicable_rejected :
    validate_answer ("not applicable, see attached".data) = "INVALID".data ∧
    validate_answer ("NOT APPLICABLE".data) = "INVALID".data ∧
    "INVALID".data ≠ "NOT APPLICABLE".data ∧
    validate_answer ("Yes, we do.".data) = "YES".data ∧
    validate_answer ("no".data) = "NO".data ∧
    validate_answer ("".data) = "INVALID".data := by
  refine ⟨by decide, by decide, by decide, by decide, by decide, by decide⟩

/-- Claim C2: `record_answer` is idempotent per question — when a record
for `q` already exists, a completed call leaves the stored sequence
unchanged (so the original record's token and entire answer are untouched
and nothing is appended), and the at-most-one-record-per-question
invariant is preserved by every completed call. -/
theorem C2_record_idempotent (st : List AnswerRecord) (q response : List Char)
    (prompts : List (List Char))
    (out : List AnswerRecord × Option (List Char) × List Event)
    (h : record_answer st q response prompts = some out) :
    ((∃ rec ∈ st, rec.question = q) → out.1 = st) ∧
    (st.Pairwise (fun a b => a.question ≠ b.question) →
      out.1.Pairwise (fun a b => a.question ≠ b.question)) := by
  rcases record_answer_some h with ⟨fl, hfl, ⟨hany, rfl⟩ | ⟨hany, rfl⟩⟩
  · exact ⟨fun _ => rfl, fun hp => hp⟩
  · constructor
    · rintro ⟨rec, hrec, hq⟩
      exfalso
      have hta : st.any (fun item => item.question == q) = true :=
        List.any_eq_true.mpr ⟨rec, hrec, by simp [hq]⟩
      rw [hta] at hany
      cases hany
    · intro hp
      dsimp only
      rw [List.pairwise_append]
      refine ⟨hp, List.pairwise_singleton _ _, ?_⟩
      intro a ha b hb
      rcases List.mem_singleton.mp hb with rfl
      intro hab
      have hta : st.any (fun item => item.question == q) = true :=
        List.any_eq_true.mpr ⟨a, ha, by simp [hab]⟩
      rw [hta] at hany
      cases hany

/-- Witness for C2 at a concrete duplicate call. -/
theorem C2_record_idempotent_witness :
    ([(⟨"Q".data, "YES".data, "YES".data⟩ : AnswerRecord)], (none : Option (List Char)),
      [Event.duplicateNotice ("Q".data)]).1
      = [(⟨"Q".data, "YES".data, "YES".data⟩ : AnswerRecord)] :=
  (C2_record_idempotent [⟨"Q".data, "YES".data, "YES".data⟩] ("Q".data) ("NO".data) []
      ([⟨"Q".data, "YES".data, "YES".data⟩], none, [Event.duplicateNotice ("Q".data)])
      (by decide)).1
    ⟨⟨"Q".data, "YES".data, "YES".data⟩, by decide, rfl⟩

/-- Claim C4: `classify_answer` returns `clarification` for every reply
containing `?` and for every reply whose lowercased, stripped form has a
first whitespace-delimited token in the interrogative set; it returns
`valid` for every other reply, and never returns `off_topic`, `malformed`,
or any value outside the two. -/
theorem C4_triage_contract (r : List Char) :
    (('?' ∈ r ∨ ∃ w ws, pySplit (pyLower (pyStrip r)) = w :: ws ∧ w ∈ qWords) →
      classify_answer r = "clarification".data) ∧
    ((¬ '?' ∈ r ∧ ¬ ∃ w ws, pySplit (pyLower (pyStrip r)) = w :: ws ∧ w ∈ qWords) →
      classify_answer r = "valid".data) ∧
    classify_answer r ≠ "off_topic".data ∧
    classify_answer r ≠ "malformed".data ∧
    (classify_answer r = "clarification".data ∨ classify_answer r = "valid".data) := by
  have hq := qmark_norm r
  have htot := classify_total r
  refine ⟨?_, ?_, ?_, ?_, htot⟩
  · rintro (h | ⟨w, ws, hw, hmem⟩)
    · unfold classify_answer
      rw [if_pos (hq.mpr h)]
    · by_cases hqm : '?' ∈ pyLower (pyStrip r)
      · unfold classify_answer
        rw [if_pos hqm]
      · unfold classify_answer
        rw [if_neg hqm, hw]
        dsimp only
        rw [if_pos hmem]
  · rintro ⟨h1, h2⟩
    unfold classify_answer
    rw [if_neg (fun hqm => h1 (hq.mp hqm))]
    rcases hsp : pySplit (pyLower (pyStrip r)) with _ | ⟨w, ws⟩
    · rfl
    · dsimp only
      rw [if_neg (fun hmem => h2 ⟨w, ws, hsp, hmem⟩)]
  · rcases htot with h | h <;> rw [h] <;> decide
  · rcases htot with h | h <;> rw [h] <;> decide

/-- Witness for C4 at concrete replies. -/
theorem C4_triage_contract_witness :
    classify_answer ("what time".data) = "clarification".data ∧
    classify_answer ("banana".data) = "valid".data :=
  ⟨(C4_triage_contract ("what time".data)).1
      (Or.inr ⟨"what".data, ["time".data], by decide, by decide⟩),
   (C4_triage_contract ("banana".data)).2.1
      ⟨by decide, by
        rintro ⟨w, ws, hw, hmem⟩
        have hsp : pySplit (pyLower (pyStrip ("banana".data))) = ["banana".data] := by
          decide
        rw [hsp] at hw
        cases hw
        exact absurd hmem (by decide)⟩⟩

/-- Claim C3: the SemanticClassifier's verdict does not influence what is
recorded — two runs of one question identical except for the returned
verdict produce identical recorder states (hence the same record, token
and entire answer); only the format check gates recording. -/
theorem C3_verdict_noninterference (q fo r1 : List Char)
    (extra : List (List Char)) (steps : List ClarStep) (v1 v2 : List Char)
    (fps : List (List Char)) (st : List AnswerRecord) :
    (runQuestion q ⟨fo, r1, extra, steps, v1, fps⟩ st).map Prod.fst =
    (runQuestion q ⟨fo, r1, extra, steps, v2, fps⟩ st).map Prod.fst := by
  unfold runQuestion
  rw [invalidLoop_eq]
  dsimp only
  cases hcl : clarLoop q (pyStrip r1) steps with
  | none => rfl
  | some fin =>
    dsimp only
    cases hra : record_answer st q fin.1 fps with
    | none => rfl
    | some res => rfl

/-- Claim C5: a `MALFORMED` reply is never fatal and never recorded — the
re-prompt loop repeats until an accepted-token reply arrives (appending
such a reply to a stalled stream completes the call), every record a
completed call adds carries an accepted token, and the scenario reply
`"banana"` is triaged `valid`, fails the format check, and creates no
record on its own. -/
theorem C5_malformed_reprompt (st : List AnswerRecord) (q reply : List Char)
    (prompts : List (List Char)) :
    (∀ out, record_answer st q reply prompts = some out →
      ∀ rec ∈ out.1, rec ∈ st ∨
        (rec.answer = "YES".data ∨ rec.answer = "NO".data ∨
         rec.answer = "NOT APPLICABLE".data)) ∧
    classify_answer ("banana".data) = "valid".data ∧
    validate_answer ("banana".data) = "INVALID".data ∧
    record_answer st q ("banana".data) [] = none ∧
    (record_answer st q reply prompts = none →
      ∀ good, validate_answer (pyStrip good) ≠ "INVALID".data →
        (record_answer st q reply (prompts ++ [good])).isSome) := by
  refine ⟨?_, by decide, by decide, ?_, ?_⟩
  · intro out h rec hrec
    rcases record_answer_some h with ⟨fl, hfl, ⟨hany, rfl⟩ | ⟨hany, rfl⟩⟩
    · exact Or.inl hrec
    · rcases List.mem_append.mp hrec with hrec | hrec
      · exact Or.inl hrec
      · rcases List.mem_singleton.mp hrec with rfl
        refine Or.inr ?_
        rcases validate_cases fl.1 with hv | hv | hv | hv
        · exact absurd hv (formatLoop_valid hfl)
        · exact Or.inl hv
        · exact Or.inr (Or.inl hv)
        · exact Or.inr (Or.inr hv)
  · have hfl : formatLoop ("banana".data) [] = none := by decide
    unfold record_answer
    rw [hfl]
    rfl
  · intro hnone good hgood
    unfold record_answer at hnone ⊢
    have h0 : formatLoop reply prompts = none := Option.map_eq_none'.mp hnone
    rcases Option.isSome_iff_exists.mp (formatLoop_append h0 hgood) with ⟨x, hx⟩
    rw [hx]
    rfl

/-- Witness for C5: with the stalled empty stream extended by `"YES"`, the
re-prompt loop completes. -/
theorem C5_malformed_reprompt_witness :
    (record_answer [] ("Q".data) ("banana".data) ([] ++ ["YES".data])).isSome :=
  (C5_malformed_reprompt [] ("Q".data) ("banana".data) []).2.2.2.2
    (by decide) ("YES".data) (by decide)

/-- Claim C7: the clarification loop invokes the Clarifier exactly once per
clarification-triaged reply, with the current question and that reply,
each invocation followed by one re-presentation and one new prompt (the
trace is exactly a concatenation of such blocks); the loop exits exactly
when a reply is triaged `valid` — a `valid` initial reply yields zero
iterations — and a completed loop's final reply is always triaged
`valid`, so recording is never reached on a clarification-triaged reply. -/
theorem C7_clarification_loop (q reply : List Char) (steps : List ClarStep)
    (out : List Char × List Event) (h : clarLoop q reply steps = some out) :
    classify_answer out.1 = "valid".data ∧
    (∃ ps : List (List Char × ClarStep), out.2 = ps.flatMap (clarBlock q) ∧
      ∀ p ∈ ps, classify_answer p.1 = "clarification".data) ∧
    (classify_answer reply = "valid".data → out = (reply, [])) := by
  obtain ⟨h1, hps⟩ := clarLoop_shape h
  have hv : classify_answer out.1 = "valid".data := by
    rcases classify_total out.1 with hh | hh
    · exact absurd hh h1
    · exact hh
  refine ⟨hv, hps, ?_⟩
  intro hr
  cases steps with
  | nil =>
    unfold clarLoop at h
    rw [if_neg (by rw [hr]; decide)] at h
    exact (Option.some.inj h).symm
  | cons s rest =>
    unfold clarLoop at h
    rw [if_neg (by rw [hr]; decide)] at h
    exact (Option.some.inj h).symm

/-- Witness for C7 at a one-iteration concrete run. -/
theorem C7_clarification_loop_witness :
    classify_answer ("YES".data) = "valid".data ∧
    (∃ ps : List (List Char × ClarStep),
      [Event.clarify ("Q".data) ("what?".data), Event.emitText ("expl".data),
       Event.rePresent ("Q".data), Event.prompt] = ps.flatMap (clarBlock ("Q".data)) ∧
      ∀ p ∈ ps, classify_answer p.1 = "clarification".data) ∧
    (classify_answer ("what?".data) = "valid".data →
      (("YES".data : List Char),
       [Event.clarify ("Q".data) ("what?".data), Event.emitText ("expl".data),
        Event.rePresent ("Q".data), Event.prompt]) = ("what?".data, [])) :=
  C7_clarification_loop ("Q".data) ("what?".data)
    [⟨"expl".data, "Q".data, "YES".data⟩]
    ("YES".data,
     [Event.clarify ("Q".data) ("what?".data), Event.emitText ("expl".data),
      Event.rePresent ("Q".data), Event.prompt])
    (by decide)

/-- Claim C8 (refuted; code bug): the spec's contract says `record_answer`
returns the accepted token (and the existing token on a duplicate), but
the Python function has no `return` statement: every completed call
returns `None`, so the caller's `if report_agent.record_answer(...)`
success branch can never run. -/
theorem C8_record_returns_none :
    record_answer [] ("Q".data) ("YES".data) []
      = some ([⟨"Q".data, "YES".data, "YES".data⟩], none,
              [Event.recordedNotice ("YES".data)]) ∧
    (∀ st q r ps out, record_answer st q r ps = some out → out.2.1 = none) ∧
    record_answer [(⟨"Q".data, "YES".data, "YES".data⟩ : AnswerRecord)]
        ("Q".data) ("NO".data) []
      = some ([⟨"Q".data, "YES".data, "YES".data⟩], none,
              [Event.duplicateNotice ("Q".data)]) := by
  refine ⟨by decide, ?_, by decide⟩
  intro st q r ps out h
  rcases record_answer_some h with ⟨fl, hfl, ⟨-, rfl⟩ | ⟨-, rfl⟩⟩ <;> rfl

/-- Witness for C8: the return value at a concrete successful call is
`None`, not the accepted token. -/
theorem C8_record_returns_none_witness :
    (([(⟨"Q".data, "YES".data, "YES".data⟩ : AnswerRecord)],
      (none : Option (List Char)),
      [Event.recordedNotice ("YES".data)]) :
        List AnswerRecord × Option (List Char) × List Event).2.1 = none :=
  C8_record_returns_none.2.1 [] ("Q".data) ("YES".data) []
    ([⟨"Q".data, "YES".data, "YES".data⟩], none,
     [Event.recordedNotice ("YES".data)])
    (by decide)

lemma runQuestion_emitted {q : List Char} {inp : QuestionInput}
    {st : List AnswerRecord} {out : List AnswerRecord × List Event}
    (h : runQuestion q inp st = some out) (t : List Char)
    (ht : Event.present t ∈ out.2 ∨ Event.rePresent t ∈ out.2) : t = pyStrip q := by
  obtain ⟨fin, res, hcl, hra, rfl⟩ := runQuestion_some h
  obtain ⟨-, ps, hps, -⟩ := clarLoop_shape hcl
  have hrec := record_trace_events hra
  dsimp only at ht
  rw [hps] at ht
  rcases ht with hp | hp <;>
    simp only [List.append_assoc, List.mem_append, List.mem_cons, List.not_mem_nil,
      List.mem_flatMap, clarBlock, List.mem_singleton, or_false, false_or] at hp
  · rcases hp with (hp | hp) | ⟨a, ha, hp | hp | hp | hp⟩ | (hp | hp) | hp | hp | hp
    · simp only [Event.present.injEq] at hp
      rw [hp, presentQuestion_eq]
    · simp at hp
    · simp at hp
    · simp at hp
    · simp at hp
    · simp at hp
    · simp at hp
    · simp at hp
    · rcases hrec _ hp with h1 | h1 | ⟨x, h1⟩ <;> simp at h1
    · cases hs : res.2.1.isSome <;> rw [hs] at hp <;> simp at hp
    · simp at hp
  · rcases hp with (hp | hp) | ⟨a, ha, hp | hp | hp | hp⟩ | (hp | hp) | hp | hp | hp
    · simp at hp
    · simp at hp
    · simp at hp
    · simp at hp
    · simp only [Event.rePresent.injEq] at hp
      rw [hp, presentQuestion_eq]
    · simp at hp
    · simp at hp
    · simp at hp
    · rcases hrec _ hp with h1 | h1 | ⟨x, h1⟩ <;> simp at h1
    · cases hs : res.2.1.isSome <;> rw [hs] at hp <;> simp at hp
    · simp at hp

/-- Claim C6: every question text emitted — the initial presentation and
every re-presentation after a clarification — equals the original
questionnaire question after trimming: the override discards any agent
output that differs from the trimmed original. -/
theorem C6_verbatim :
    (∀ original output, presentQuestion original output = pyStrip original) ∧
    (∀ (q : List Char) (inp : QuestionInput) (st : List AnswerRecord) out,
      runQuestion q inp st = some out →
      ∀ t, Event.present t ∈ out.2 ∨ Event.rePresent t ∈ out.2 → t = pyStrip q) :=
  ⟨presentQuestion_eq, fun _ _ _ _ h t ht => runQuestion_emitted h t ht⟩

/-- Witness for C6 at a concrete run. -/
theorem C6_verbatim_witness : ("Q".data : List Char) = pyStrip ("Q".data) :=
  C6_verbatim.2 ("Q".data) ⟨"Q".data, "YES".data, [], [], "valid".data, []⟩ []
    ([⟨"Q".data, "YES".data, "YES".data⟩],
     [Event.present ("Q".data), Event.prompt, Event.semantic ("Q".data) ("YES".data),
      Event.verdictLogged ("valid".data), Event.recordedNotice ("YES".data), Event.save])
    (by decide) ("Q".data) (Or.inl (by decide))

/-- Claim C9: each save snapshots the whole in-memory sequence, a save
happens after each question and once more at the end (`n + 1` saves, the
last equal to the final state), and the record order equals the order of
first successful recording, which is the questionnaire's
domain-then-question order (later duplicate question strings dropped). -/
theorem C9_persistence_order (qn : List (List Char × List (List Char)))
    (inputs : List QuestionInput)
    (hlen : (flattenQs qn).length ≤ inputs.length)
    (out : List AnswerRecord × List (List AnswerRecord))
    (h : runAll ((flattenQs qn).zip inputs) [] = some out) :
    out.1.map (fun rec => rec.question) = firstOccur ((flattenQs qn).map Prod.snd) ∧
    out.2.length = (flattenQs qn).length + 1 ∧
    out.2.getLast? = some out.1 := by
  obtain ⟨m1, m2, m3⟩ := runAll_sound _ _ _ h
  have hfst : ((flattenQs qn).zip inputs).map (fun p => p.1.2)
      = (flattenQs qn).map Prod.snd := by
    have h1 : ((flattenQs qn).zip inputs).map Prod.fst = flattenQs qn :=
      List.map_fst_zip _ _ hlen
    calc ((flattenQs qn).zip inputs).map (fun p => p.1.2)
        = (((flattenQs qn).zip inputs).map Prod.fst).map Prod.snd := by
          rw [List.map_map]
          rfl
      _ = (flattenQs qn).map Prod.snd := by rw [h1]
  have hzlen : ((flattenQs qn).zip inputs).length = (flattenQs qn).length := by
    rw [List.length_zip]
    exact Nat.min_eq_left hlen
  refine ⟨?_, ?_, m3⟩
  · rw [m1, hfst]
    rfl
  · rw [m2, hzlen]

/-- Witness for C9 at a concrete two-question questionnaire. -/
theorem C9_persistence_order_witness :
    ([(⟨"Q1".data, "YES".data, "YES".data⟩ : AnswerRecord),
      ⟨"Q2".data, "NO".data, "no".data⟩].map (fun rec => rec.question)
      = firstOccur ((flattenQs [("d1".data, ["Q1".data, "Q2".data])]).map Prod.snd)) ∧
    ([[(⟨"Q1".data, "YES".data, "YES".data⟩ : AnswerRecord)],
      [⟨"Q1".data, "YES".data, "YES".data⟩, ⟨"Q2".data, "NO".data, "no".data⟩],
      [⟨"Q1".data, "YES".data, "YES".data⟩, ⟨"Q2".data, "NO".data, "no".data⟩]].length
      = (flattenQs [("d1".data, ["Q1".data, "Q2".data])]).length + 1) ∧
    ([[(⟨"Q1".data, "YES".data, "YES".data⟩ : AnswerRecord)],
      [⟨"Q1".data, "YES".data, "YES".data⟩, ⟨"Q2".data, "NO".data, "no".data⟩],
      [⟨"Q1".data, "YES".data, "YES".data⟩, ⟨"Q2".data, "NO".data, "no".data⟩]].getLast?
      = some [(⟨"Q1".data, "YES".data, "YES".data⟩ : AnswerRecord),
              ⟨"Q2".data, "NO".data, "no".data⟩]) :=
  C9_persistence_order [("d1".data, ["Q1".data, "Q2".data])]
    [⟨"Q1".data, "YES".data, [], [], "valid".data, []⟩,
     ⟨"Q2".data, "no".data, [], [], "valid".data, []⟩]
    (by decide)
    ([⟨"Q1".data, "YES".data, "YES".data⟩, ⟨"Q2".data, "NO".data, "no".data⟩],
     [[⟨"Q1".data, "YES".data, "YES".data⟩],
      [⟨"Q1".data, "YES".data, "YES".data⟩, ⟨"Q2".data, "NO".data, "no".data⟩],
      [⟨"Q1".data, "YES".data, "YES".data⟩, ⟨"Q2".data, "NO".data, "no".data⟩]])
    (by decide)

/-- Claim C10 (implicit): replies collected during the format re-prompt
loop bypass all semantic stages — a completed `record_answer` call's trace
holds only format re-prompts and recording notices (no Clarifier, triager
or SemanticClassifier events), and in a concrete run the re-prompted
reply `"YES ok?"`, which the triager would classify as `clarification`,
is recorded as the Entire Answer because its first token is accepted. -/
theorem C10_format_loop_bypass :
    (∀ st q r ps out, record_answer st q r ps = some out →
      ∀ e ∈ out.2.2, e = Event.formatReprompt ∨ e = Event.duplicateNotice q ∨
        ∃ x, e = Event.recordedNotice x) ∧
    runQuestion ("Q".data)
        ⟨"Q".data, "banana".data, [], [], "valid".data, ["YES ok?".data]⟩ []
      = some ([⟨"Q".data, "YES".data, "YES ok?".data⟩],
          [Event.present ("Q".data), Event.prompt,
           Event.semantic ("Q".data) ("banana".data),
           Event.verdictLogged ("valid".data), Event.formatReprompt,
           Event.recordedNotice ("YES ok?".data), Event.save]) ∧
    classify_answer ("YES ok?".data) = "clarification".data ∧
    validate_answer ("YES ok?".data) = "YES".data :=
  ⟨fun _ _ _ _ _ h => record_trace_events h, by decide, by decide, by decide⟩

/-- Witness for C10 at a concrete re-prompted call. -/
theorem C10_format_loop_bypass_witness :
    Event.formatReprompt = Event.formatReprompt ∨
    Event.formatReprompt = Event.duplicateNotice ("Q".data) ∨
    ∃ x, Event.formatReprompt = Event.recordedNotice x :=
  C10_format_loop_bypass.1 [] ("Q".data) ("banana".data) (["YES ok?".data])
    ([⟨"Q".data, "YES".data, "YES ok?".data⟩], none,
     [Event.formatReprompt, Event.recordedNotice ("YES ok?".data)])
    (by decide) Event.formatReprompt (by decide)
